import Mathlib

/-!
Verification development for the timelapse overlay engine.

The Python sources (TextLine.py, DrawTimelapseOverlay.py, ParseDate.py) are
shallowly embedded below.  Text is a list of ASCII code points; the glyph
metrics backend (PIL ImageFont, an external collaborator) is abstracted as a
`Metrics` record of pure functions; stateful Python methods become explicit
state-passing functions; Python exceptions become `Option` results; Python
truthiness of `None`/`0`/`""` is modelled explicitly where the source relies
on it.
-/

namespace Timelapse

/-- Python `sys.maxsize` on a 64-bit platform (used as a search sentinel in
`TextLine.searchMetric`). -/
def MAXSIZE : Int := 2 ^ 63 - 1

/-- ASCII codes of the digits 0-9 (source constant `TextLine.NUMBER`,
`list(range(48, 58))`). -/
def NUMBER : List Nat := List.range' 48 10

/-- ASCII codes of A-Z (source constant `TextLine.UPPER`,
`list(range(65, 91))`). -/
def UPPER : List Nat := List.range' 65 26

/-- ASCII codes of a-z (source constant `TextLine.LOWER`,
`list(range(97, 123))`). -/
def LOWER : List Nat := List.range' 97 26

/-- ASCII code of the comma (source constant `TextLine.COMMA`). -/
def COMMA : List Nat := [44]

/-- ASCII code of the colon (source constant `TextLine.COLON`). -/
def COLON : List Nat := [58]

/-- Abstract glyph-metrics backend (PIL `ImageFont`), an external collaborator
of the repository.  `getsize fontFile fontPoint text` returns
`((width, height), (offsetX, offsetY))` exactly as `font.font.getsize` does;
`ascent` is the first component of `font.getmetrics()`; `tabsWidth` models
`TextLine.getTabsWidth`; `maskBbox` models `font.getmask(text).getbbox()`. -/
structure Metrics where
  ascent : String → Int → Int
  getsize : String → Int → List Nat → (Int × Int) × (Int × Int)
  tabsWidth : String → Int → List Nat → Int
  maskBbox : String → Int → List Nat → Int × Int × Int × Int

/-- The `TextLine` entity (source `TextLine.__init__`): text content, style
(font file, font point, color), owning image dimensions, the derived
size/trueHeight/offset, and the mutable position/border fields. -/
structure TextLine where
  text : List Nat
  fontFile : String
  fontPoint : Int
  color : String
  imgW : Int
  imgH : Int
  size : Int × Int
  trueHeight : Int
  offset : Int × Int
  position : Option (Int × Int)
  borderSize : Option (Int × Int × Int × Int)
  borderColor : Option String
deriving Repr, Inhabited, DecidableEq

/-- `getText(True)`: remove the delimiters TAB (code 9) and REVERSE_TAB
(code 13) from the text. -/
def cleanText (t : List Nat) : List Nat := t.filter (fun c => c != 9 && c != 13)

/-- `TextLine.getText` (source lines 948-963). -/
def TextLine.getText (tl : TextLine) (removeDelimiters : Bool) : List Nat :=
  if removeDelimiters then cleanText tl.text else tl.text

/-- `TextLine.getFontPoint`. -/
def TextLine.getFontPoint (tl : TextLine) : Int := tl.fontPoint

/-- `TextLine.compareStyle`: style equality is equality of font file, font
point and color only. -/
def TextLine.compareStyle (tl other : TextLine) : Bool :=
  tl.fontFile == other.fontFile && tl.fontPoint == other.fontPoint &&
    tl.color == other.color

/-- The width stored by `setSize`: `font.font.getsize` width of the
delimiter-free text plus `getTabsWidth` of the full text. -/
def lineWidth (M : Metrics) (fontFile : String) (text : List Nat)
    (fontPoint : Int) : Int :=
  (M.getsize fontFile fontPoint (cleanText text)).1.1 +
    M.tabsWidth fontFile fontPoint text

/-- `TextLine.setSize` (source lines 1107-1127): recompute `trueHeight`,
`size = (width + tabs, ascent)` and `offset` from the current
(text, fontFile, fontPoint). -/
def TextLine.setSize (M : Metrics) (tl : TextLine) : TextLine :=
  let a := M.ascent tl.fontFile tl.fontPoint
  let r := M.getsize tl.fontFile tl.fontPoint (cleanText tl.text)
  { tl with
    trueHeight := r.1.2
    size := (r.1.1 + M.tabsWidth tl.fontFile tl.fontPoint tl.text, a)
    offset := r.2 }

/-- `TextLine.__init__`: store the passed fields, leave position and border
unset, and run `setSize`. -/
def mkTextLine (M : Metrics) (text : List Nat) (fontFile : String)
    (fontPoint : Int) (color : String) (imgW imgH : Int) : TextLine :=
  TextLine.setSize M
    { text := text, fontFile := fontFile, fontPoint := fontPoint,
      color := color, imgW := imgW, imgH := imgH, size := (0, 0),
      trueHeight := 0, offset := (0, 0), position := none,
      borderSize := none, borderColor := none }

/-- `TextLine.setPos` (source lines 1085-1105).  The source guard is the
Python chained comparison `0 > position[X] > self.img.width or
0 > position[Y] > self.img.height`, i.e. a conjunction; `none` models the
raised `ValueError`. -/
def TextLine.setPos (tl : TextLine) (position : Int × Int) :
    Option TextLine :=
  if (0 > position.1 ∧ position.1 > tl.imgW) ∨
      (0 > position.2 ∧ position.2 > tl.imgH) then
    none
  else
    some { tl with position := some position }

/-- `TextLine.setText`: replace the text and rerun `setSize`. -/
def TextLine.setText (M : Metrics) (tl : TextLine) (text : List Nat) :
    TextLine :=
  TextLine.setSize M { tl with text := text }

/-- `TextLine.setFontPoint`: replace the font point (the font object is
rebuilt from the same font file) and rerun `setSize`. -/
def TextLine.setFontPoint (M : Metrics) (tl : TextLine) (fontPoint : Int) :
    TextLine :=
  TextLine.setSize M { tl with fontPoint := fontPoint }

/-- `TextLine.setBorderSize` (source lines 1143-1161): the body runs only
`if borderSize:`; a `None` argument leaves the entity untouched (a non-empty
tuple is always truthy in Python). -/
def TextLine.setBorderSize (tl : TextLine)
    (borderSize : Option (Int × Int × Int × Int)) : TextLine :=
  match borderSize with
  | some b => { tl with borderSize := some b }
  | none => tl

/-- `TextLine.setBorderColor` (source lines 1163-1175): the body runs only
`if borderColor:`; both `None` and the empty string are falsy. -/
def TextLine.setBorderColor (tl : TextLine) (borderColor : Option String) :
    TextLine :=
  match borderColor with
  | some c => if c != "" then { tl with borderColor := some c } else tl
  | none => tl

/-- `TextLine.copyStyle`: a fresh TextLine with new text and the original
style and image. -/
def TextLine.copyStyle (M : Metrics) (tl : TextLine) (text : List Nat) :
    TextLine :=
  mkTextLine M text tl.fontFile tl.fontPoint tl.color tl.imgW tl.imgH

/-- `TextLine.copy`: rebuild via the constructor, then re-apply position and
border when they are truthy (tuples are truthy when present, string colors
when non-empty).  `setPos` can raise, hence the `Option`. -/
def TextLine.copy (M : Metrics) (tl : TextLine) : Option TextLine :=
  let c := mkTextLine M tl.text tl.fontFile tl.fontPoint tl.color tl.imgW
    tl.imgH
  let withPos := match tl.position with
    | some p => TextLine.setPos c p
    | none => some c
  match withPos with
  | none => none
  | some c1 =>
    let c2 := match tl.borderSize with
      | some b => TextLine.setBorderSize c1 (some b)
      | none => c1
    let c3 := match tl.borderColor with
      | some col => if col != "" then TextLine.setBorderColor c2 (some col)
          else c2
      | none => c2
    some c3

/-- `Resize` enum. -/
inductive Resize where
  | GROW
  | SHRINK
deriving BEq, DecidableEq, Repr

/-- `FindMetric` enum. -/
inductive FindMetric where
  | LARGEST
  | SMALLEST
deriving BEq, DecidableEq, Repr

/-- `TextMetric` enum. -/
inductive TextMetric where
  | LEFT_KERNING
  | RIGHT_KERNING
  | X_OFFSET
  | Y_OFFSET
deriving BEq, DecidableEq, Repr

/-- One step of the composition loop in `TextLine.getAsciiRange` (source
lines 260-272): a code already collected is skipped, otherwise the first
matching range is appended whole, in the source's check order UPPER, LOWER,
NUMBER, COMMA, COLON. -/
def compositionStep (comp : List Nat) (code : Nat) : List Nat :=
  if comp.contains code then comp
  else if UPPER.contains code then comp ++ UPPER
  else if LOWER.contains code then comp ++ LOWER
  else if NUMBER.contains code then comp ++ NUMBER
  else if COMMA.contains code then comp ++ COMMA
  else if COLON.contains code then comp ++ COLON
  else comp

/-- `TextLine.getAsciiRange` (source lines 238-274): the predicted
composition of a TextLine, built from its delimiter-free text. -/
def TextLine.getAsciiRange (tl : TextLine) : List Nat :=
  (tl.getText true).foldl compositionStep []

/-- `TextLine.getBbox` (source lines 101-123): backend mask bbox, with total
tab width added to X2 when the text contains a TAB. -/
def TextLine.getBbox (M : Metrics) (tl : TextLine) :
    Int × Int × Int × Int :=
  let b := M.maskBbox tl.fontFile tl.fontPoint (tl.getText true)
  let tabs := if tl.text.contains 9 then
      M.tabsWidth tl.fontFile tl.fontPoint tl.text
    else 0
  (b.1, b.2.1, b.2.2.1 + tabs, b.2.2.2)

/-- `TextLine.getKerningWidth` (source lines 179-194). -/
def TextLine.getKerningWidth (M : Metrics) (tl : TextLine) : Int × Int :=
  let b := TextLine.getBbox M tl
  (b.1, tl.size.1 - b.2.2.1)

/-- The single-character measurement taken inside the `searchMetric` loop
(source lines 344-357): set the composition character on a style copy and
read the requested metric. -/
def metricOf (M : Metrics) (tl : TextLine) (attrib : TextMetric)
    (code : Nat) : Int :=
  let single := TextLine.setText M (TextLine.copyStyle M tl []) [code]
  match attrib with
  | TextMetric.X_OFFSET => single.offset.1
  | TextMetric.Y_OFFSET => single.offset.2
  | TextMetric.LEFT_KERNING => (TextLine.getKerningWidth M single).1
  | TextMetric.RIGHT_KERNING => (TextLine.getKerningWidth M single).2

/-- `TextLine.searchMetric` (source lines 318-364): fold the sign-flipped
strict comparison over the composition, starting from the `sys.maxsize`
sentinel (SMALLEST) or `-sys.maxsize - 1` (LARGEST). -/
def TextLine.searchMetric (M : Metrics) (tl : TextLine) (mode : FindMetric)
    (attrib : TextMetric) : Int :=
  let cmp : Int := match mode with
    | FindMetric.SMALLEST => -1
    | FindMetric.LARGEST => 1
  let init : Int := match mode with
    | FindMetric.SMALLEST => MAXSIZE
    | FindMetric.LARGEST => -MAXSIZE - 1
  (TextLine.getAsciiRange tl).foldl
    (fun result code =>
      let toCompare := metricOf M tl attrib code
      if toCompare * cmp > result * cmp then toCompare else result)
    init

/-- Python truthiness of the `smallestOffY` loop variable in
`getLeadingOffset`: `None` and `0` are falsy. -/
def loTruthy : Option Int → Bool
  | none => false
  | some v => v != 0

/-- The `while not smallestOffY and i > -1` scan of the leading-offset cache
(source DrawTimelapseOverlay.py lines 433-440), expressed over the cache read
newest-first.  An entry is consulted only while the accumulator is falsy; a
style match overwrites the accumulator with the entry's stored result. -/
def loScan (toDraw : TextLine) : List (TextLine × Int) → Option Int →
    Option Int
  | [], acc => acc
  | e :: rest, acc =>
    if loTruthy acc then acc
    else loScan toDraw rest
      (if TextLine.compareStyle toDraw e.1 then some e.2 else acc)

/-- `getLeadingOffset` (source DrawTimelapseOverlay.py lines 396-450): serve
the scanned cache value when it is truthy, otherwise copy the line, search
the smallest composition Y offset, append the new cache entry, and in both
cases subtract the line's own current vertical offset.  The `Option` models
the `ValueError` that `TextLine.copy` can raise through `setPos`. -/
def getLeadingOffset (M : Metrics) (cache : List (TextLine × Int))
    (toDraw : TextLine) : Option (Int × List (TextLine × Int)) :=
  let s := loScan toDraw cache.reverse none
  if loTruthy s then some (s.getD 0 - toDraw.offset.2, cache)
  else
    match TextLine.copy M toDraw with
    | none => none
    | some toDrawCopy =>
      let smallestOffY := TextLine.searchMetric M toDraw FindMetric.SMALLEST
        TextMetric.Y_OFFSET
      some (smallestOffY - toDraw.offset.2,
        cache ++ [(toDrawCopy, smallestOffY)])

/-- The `while ... > ...: setFontPoint(point - 1)` loop of
`TextLine.resize` in SHRINK mode (source TextLine.py lines 389-394), with
explicit fuel standing for the bounded font-point range; `none` means the
loop was still running when the fuel ran out. -/
def resizeLoopShrink (M : Metrics) (target : Int) :
    Nat → TextLine → Option TextLine
  | 0, tr => if tr.size.1 > target then none else some tr
  | fuel + 1, tr =>
    if tr.size.1 > target then
      resizeLoopShrink M target fuel
        (TextLine.setFontPoint M tr (tr.fontPoint - 1))
    else some tr

/-- The `while ... < ...: setFontPoint(point + 1)` loop of
`TextLine.resize` in GROW mode (source TextLine.py lines 395-400). -/
def resizeLoopGrow (M : Metrics) (target : Int) :
    Nat → TextLine → Option TextLine
  | 0, tr => if tr.size.1 < target then none else some tr
  | fuel + 1, tr =>
    if tr.size.1 < target then
      resizeLoopGrow M target fuel
        (TextLine.setFontPoint M tr (tr.fontPoint + 1))
    else some tr

/-- `TextLine.resize` (source TextLine.py lines 366-412): run the mode's loop
against `toCompare`'s width and return the resized line together with the
size and offset differences. -/
def TextLine.resize (M : Metrics) (fuel : Nat) (toResize toCompare : TextLine)
    (mode : Resize) : Option (TextLine × ((Int × Int) × (Int × Int))) :=
  let ow := toResize.size
  let oo := toResize.offset
  let looped := match mode with
    | Resize.SHRINK => resizeLoopShrink M toCompare.size.1 fuel toResize
    | Resize.GROW => resizeLoopGrow M toCompare.size.1 fuel toResize
  Option.map
    (fun tr2 => (tr2, ((tr2.size.1 - ow.1, tr2.size.2 - ow.2),
      (tr2.offset.1 - oo.1, tr2.offset.2 - oo.2))))
    looped

/-- An entry of the `RESIZE_RESULTS` cache:
`(toResize, toCompare, resizeMode, newFontPoint, sizeDif)`. -/
structure RzEntry where
  toResize : TextLine
  toCompare : TextLine
  mode : Resize
  newFontPoint : Int
  sizeDif : (Int × Int) × (Int × Int)

/-- Python truthiness of the `newFontPoint` loop variable in
`resizeTextLine`: `None` and `0` are falsy. -/
def rzTruthy : Option (Int × ((Int × Int) × (Int × Int))) → Bool
  | none => false
  | some v => v.1 != 0

/-- The `while not newFontPoint and i > -1` scan of the resize cache (source
DrawTimelapseOverlay.py lines 485-498), over the cache read newest-first.
Every matching entry consulted while the accumulator is falsy stores its
result AND mutates `toResize` via `setFontPoint`, so the line state is
threaded through the scan. -/
def rzScan (M : Metrics) (toCompare : TextLine) (mode : Resize) :
    List RzEntry → Option (Int × ((Int × Int) × (Int × Int))) → TextLine →
    Option (Int × ((Int × Int) × (Int × Int))) × TextLine
  | [], acc, tr => (acc, tr)
  | e :: rest, acc, tr =>
    if rzTruthy acc then (acc, tr)
    else if TextLine.compareStyle tr e.toResize &&
        TextLine.compareStyle toCompare e.toCompare && mode == e.mode then
      rzScan M toCompare mode rest (some (e.newFontPoint, e.sizeDif))
        (TextLine.setFontPoint M tr e.newFontPoint)
    else rzScan M toCompare mode rest acc tr

/-- `resizeTextLine` (source DrawTimelapseOverlay.py lines 453-516): serve
the cached size difference (the scan already re-applied the cached font
point), otherwise copy both lines, run `TextLine.resize` on the post-scan
state, and append a new cache entry.  Returns the size difference, the final
`toResize` state and the new cache. -/
def resizeTextLine (M : Metrics) (fuel : Nat) (cache : List RzEntry)
    (toResize toCompare : TextLine) (mode : Resize) :
    Option (((Int × Int) × (Int × Int)) × TextLine × List RzEntry) :=
  match rzScan M toCompare mode cache.reverse none toResize with
  | (acc, tr) =>
    if rzTruthy acc then
      some ((acc.getD (0, ((0, 0), (0, 0)))).2, tr, cache)
    else
      match TextLine.copy M tr, TextLine.copy M toCompare with
      | some toResizeCopy, some toCompareCopy =>
        match TextLine.resize M fuel tr toCompare mode with
        | some (tr2, sizeDif) =>
          some (sizeDif, tr2,
            cache ++ [⟨toResizeCopy, toCompareCopy, mode, tr2.fontPoint,
              sizeDif⟩])
        | none => none
      | _, _ => none

/-- Python `str.replace(":", " : ")` on code-point text: every colon (58)
becomes space-colon-space. -/
def replaceColonSpaced (t : List Nat) : List Nat :=
  t.flatMap (fun c => if c = 58 then [32, 58, 32] else [c])

/-- The result of `combineTimeAmPm`: the mutated line list, the new values of
the AMPM / TIME / DATE index globals (`AMPM` becomes null), and the combined
line that the source returns. -/
structure CombineResult where
  lines : List TextLine
  ampmIdx : Option Nat
  timeIdx : Nat
  dateIdx : Nat
  combined : TextLine

/-- `combineTimeAmPm` (source DrawTimelapseOverlay.py lines 1083-1114):
append the AM/PM text (after optional decorative colon spacing) to the time
line's text, delete the AM/PM line from the list, null the AMPM index and
decrement the TIME and DATE index globals. -/
def combineTimeAmPm (M : Metrics) (ampmI timeI dateI : Nat)
    (linesToDraw : List TextLine) (colonSpacing : Bool) : CombineResult :=
  let ampm := linesToDraw.getD ampmI default
  let time := linesToDraw.getD timeI default
  let newTime := TextLine.setText M time
    ((if colonSpacing then replaceColonSpaced time.text else time.text) ++
      [32] ++ ampm.text)
  let lines2 := (linesToDraw.set timeI newTime).eraseIdx ampmI
  ⟨lines2, none, timeI - 1, dateI - 1, newTime⟩

/-- The parsed-date dictionary produced by `parseDate`
(source ParseDate.py lines 11-32). -/
structure ParsedDate where
  time_12hr : String
  am_pm : String
  date : String
  day_of_week_abr : String
  month_abr : String
  year : String
deriving Repr, DecidableEq

/-- Gregorian leap year (Python `datetime` semantics). -/
def isLeap (y : Nat) : Bool := (y % 4 == 0 && y % 100 != 0) || y % 400 == 0

/-- Days in a month of the proleptic Gregorian calendar. -/
def daysInMonth (y m : Nat) : Nat :=
  if m == 2 then (if isLeap y then 29 else 28)
  else if m == 4 || m == 6 || m == 9 || m == 11 then 30
  else 31

/-- Day of week by Sakamoto's method, 0 = Sunday (the proleptic Gregorian
weekday that Python `datetime.strftime("%a")` reports). -/
def dayOfWeek (y m d : Nat) : Nat :=
  let t := [0, 3, 2, 5, 0, 3, 5, 1, 4, 6, 2, 4]
  let y2 := if m < 3 then y - 1 else y
  (y2 + y2 / 4 - y2 / 100 + y2 / 400 + t.getD (m - 1) 0 + d) % 7

/-- Uppercased C-locale `%a` abbreviations, indexed with 0 = Sunday. -/
def dowAbr : Nat → String
  | 0 => "SUN"
  | 1 => "MON"
  | 2 => "TUE"
  | 3 => "WED"
  | 4 => "THU"
  | 5 => "FRI"
  | 6 => "SAT"
  | _ => ""

/-- Uppercased C-locale `%b` abbreviations, indexed 1-12. -/
def monthAbr : Nat → String
  | 1 => "JAN"
  | 2 => "FEB"
  | 3 => "MAR"
  | 4 => "APR"
  | 5 => "MAY"
  | 6 => "JUN"
  | 7 => "JUL"
  | 8 => "AUG"
  | 9 => "SEP"
  | 10 => "OCT"
  | 11 => "NOV"
  | 12 => "DEC"
  | _ => ""

/-- Two-digit zero padding (`%I`, `%M`, `%d`). -/
def pad2 (n : Nat) : String :=
  if n < 10 then ("0" ++ toString n) else toString n

/-- Numeric value of a decimal digit character. -/
def digitVal (c : Char) : Nat := c.toNat - 48

/-- The concrete date string of Scenario A. -/
def dateA : String := "2024-07-04_1530"

/-- `parseDate` (source ParseDate.py lines 11-32): parse `YYYY-MM-DD_HHMM`
with `datetime.strptime` semantics (the external `datetime` collaborator is
modelled by the proleptic-Gregorian helpers above), returning the dictionary
of `strftime` fields `%I:%M` / `%p` / `%d` / `%a` / `%b` / `%Y`, each
uppercased; `none` models the `ValueError` branch that reports an invalid
date format. -/
def parseDate (date : String) : Option ParsedDate :=
  match date.toList with
  | [y1, y2, y3, y4, s1, m1, m2, s2, d1, d2, s3, h1, h2, n1, n2] =>
    if (y1.isDigit && y2.isDigit && y3.isDigit && y4.isDigit &&
        m1.isDigit && m2.isDigit && d1.isDigit && d2.isDigit &&
        h1.isDigit && h2.isDigit && n1.isDigit && n2.isDigit) &&
        (s1 == '-' && s2 == '-' && s3 == '_') then
      let y := 1000 * digitVal y1 + 100 * digitVal y2 + 10 * digitVal y3 +
        digitVal y4
      let m := 10 * digitVal m1 + digitVal m2
      let d := 10 * digitVal d1 + digitVal d2
      let h := 10 * digitVal h1 + digitVal h2
      let mi := 10 * digitVal n1 + digitVal n2
      if 1 ≤ m && m ≤ 12 && 1 ≤ d && d ≤ daysInMonth y m && h < 24 &&
          mi < 60 && 1 ≤ y then
        let h12 := if h % 12 == 0 then 12 else h % 12
        some
          { time_12hr := pad2 h12 ++ ":" ++ pad2 mi
            am_pm := if h < 12 then ("AM") else ("PM")
            date := pad2 d
            day_of_week_abr := dowAbr (dayOfWeek y m d)
            month_abr := monthAbr m
            year := toString y }
      else none
    else none
  | _ => none

/-- A degenerate concrete metrics backend: every measurement is zero.  Used
to evaluate the embedding at concrete inputs. -/
def M0 : Metrics :=
  { ascent := fun _ _ => 0
    getsize := fun _ _ _ => ((0, 0), (0, 0))
    tabsWidth := fun _ _ _ => 0
    maskBbox := fun _ _ _ => (0, 0, 0, 0) }

/-- A concrete metrics backend whose text width equals the font point, with
all other measurements zero.  Used to evaluate the resize loops. -/
def Mlin : Metrics :=
  { ascent := fun _ _ => 0
    getsize := fun _ p _ => ((p, 0), (0, 0))
    tabsWidth := fun _ _ _ => 0
    maskBbox := fun _ _ _ => (0, 0, 0, 0) }

/-- The code points of `"9:15"`. -/
def codes915 : List Nat := [57, 58, 49, 53]

/-- The code points of `"10:15"`. -/
def codes1015 : List Nat := [49, 48, 58, 49, 53]

/-- A concrete metrics backend under which the string `"9:15"` measures with
vertical offset 0 while every other text (in particular every single
character and `"10:15"`) measures with vertical offset 5. -/
def Mcx : Metrics :=
  { ascent := fun _ _ => 0
    getsize := fun _ _ t => ((0, 0), (0, if t = codes915 then 0 else 5))
    tabsWidth := fun _ _ _ => 0
    maskBbox := fun _ _ _ => (0, 0, 0, 0) }

/-- The font file path used by the concrete fixtures. -/
def fontA : String := "font.ttf"

/-- The text color used by the concrete fixtures. -/
def colorA : String := "#FFFFFF"

/-- A concrete TextLine with text `"A"` over a 100 x 100 image. -/
def tlA : TextLine := mkTextLine M0 [65] fontA 10 colorA 100 100

/-- A concrete TextLine whose text is a single space, so that no character
matches any composition range. -/
def tlSpace : TextLine := mkTextLine M0 [32] fontA 10 colorA 100 100

/-- A concrete TextLine with text `"9:15"` under the `Mcx` backend. -/
def tl915 : TextLine := mkTextLine Mcx codes915 fontA 10 colorA 100 100

/-- A concrete TextLine with text `"10:15"` under the `Mcx` backend, sharing
`tl915`'s style. -/
def tl1015 : TextLine :=
  mkTextLine Mcx codes1015 fontA 10 colorA 100 100

/-- A concrete TextLine with text `"9:15"` under the zero backend `M0`. -/
def tl915z : TextLine := mkTextLine M0 codes915 fontA 10 colorA 100 100

/-- A concrete TextLine with text `"10:15"` under the zero backend `M0`,
sharing `tl915z`'s style. -/
def tl1015z : TextLine :=
  mkTextLine M0 codes1015 fontA 10 colorA 100 100

/-- A concrete TextLine of width 3 (font point 3) under `Mlin`. -/
def trW : TextLine := mkTextLine Mlin [65] fontA 3 colorA 100 100

/-- A concrete TextLine of width 6 (font point 6) under `Mlin`. -/
def tcW : TextLine := mkTextLine Mlin [65] fontA 6 colorA 100 100

/-- A concrete resize-cache entry matching `(trW, tcW, GROW)` with a cached
font point of 5. -/
def rzE : RzEntry := ⟨trW, tcW, Resize.GROW, 5, ((1, 0), (0, 0))⟩

/-- A concrete resize-cache entry matching `(trW, tcW, GROW)` whose cached
font point is 0 (a falsy cached result). -/
def rzE0 : RzEntry := ⟨trW, tcW, Resize.GROW, 0, ((9, 9), (9, 9))⟩

/-- The copy that `resizeTextLine` makes of `trW` after the zero-font-point
cache entry has re-applied `setFontPoint(0)` to it. -/
def trc0 : TextLine := mkTextLine Mlin [65] fontA 0 colorA 100 100

/-- The consistency invariant of the data model: the stored `size`, `offset`
and `trueHeight` agree with what `setSize` derives from the current
`(text, fontFile, fontPoint)`. -/
def sizeConsistent (M : Metrics) (tl : TextLine) : Prop :=
  tl.size = (lineWidth M tl.fontFile tl.text tl.fontPoint,
    M.ascent tl.fontFile tl.fontPoint) ∧
  tl.offset = (M.getsize tl.fontFile tl.fontPoint (cleanText tl.text)).2 ∧
  tl.trueHeight =
    (M.getsize tl.fontFile tl.fontPoint (cleanText tl.text)).1.2

/-- One mutating TextLine operation of the source entity. -/
inductive TLOp where
  | opSetText (text : List Nat)
  | opSetFontPoint (fontPoint : Int)
  | opSetPos (position : Int × Int)
  | opSetBorderSize (borderSize : Option (Int × Int × Int × Int))
  | opSetBorderColor (borderColor : Option String)

/-- Apply one TextLine operation; a failed `setPos` (raised `ValueError`)
leaves the entity as it was. -/
def runOp (M : Metrics) (tl : TextLine) : TLOp → TextLine
  | TLOp.opSetText t => TextLine.setText M tl t
  | TLOp.opSetFontPoint p => TextLine.setFontPoint M tl p
  | TLOp.opSetPos p => (TextLine.setPos tl p).getD tl
  | TLOp.opSetBorderSize b => TextLine.setBorderSize tl b
  | TLOp.opSetBorderColor c => TextLine.setBorderColor tl c

/-- Apply a sequence of TextLine operations in order. -/
def runOps (M : Metrics) (ops : List TLOp) (tl : TextLine) : TextLine :=
  ops.foldl (runOp M) tl

/-- `setSize` establishes the size/offset consistency invariant. -/
theorem sizeConsistent_setSize (M : Metrics) (tl : TextLine) :
    sizeConsistent M (TextLine.setSize M tl) :=
  ⟨rfl, rfl, rfl⟩

/-- Every TextLine operation preserves the consistency invariant: the two
setters that change `(text, fontFile, fontPoint)` rerun `setSize`, the
others touch none of the measured fields. -/
theorem runOp_consistent (M : Metrics) (tl : TextLine) (op : TLOp)
    (h : sizeConsistent M tl) : sizeConsistent M (runOp M tl op) := by
  cases op with
  | opSetText t => exact sizeConsistent_setSize M _
  | opSetFontPoint p => exact sizeConsistent_setSize M _
  | opSetPos p =>
    show sizeConsistent M ((TextLine.setPos tl p).getD tl)
    simp only [TextLine.setPos]
    split
    · exact h
    · exact h
  | opSetBorderSize b =>
    cases b with
    | none => exact h
    | some bs => exact h
  | opSetBorderColor c =>
    cases c with
    | none => exact h
    | some s =>
      show sizeConsistent M (TextLine.setBorderColor tl (some s))
      simp only [TextLine.setBorderColor]
      split
      · exact h
      · exact h

/-- Any sequence of operations preserves the consistency invariant. -/
theorem runOps_consistent (M : Metrics) (ops : List TLOp) :
    ∀ tl : TextLine, sizeConsistent M tl →
      sizeConsistent M (runOps M ops tl) := by
  induction ops with
  | nil => intro tl h; exact h
  | cons op rest ih =>
    intro tl h
    exact ih (runOp M tl op) (runOp_consistent M tl op h)

/-- C5: after any sequence of TextLine operations starting from the
constructor, the stored size, offset and trueHeight agree with what the
metrics backend derives from the current (text, fontFile, fontPoint) —
`setText` and `setFontPoint` recompute them via `setSize` and no other
operation disturbs them — and `setFontPoint p` followed by `getFontPoint`
returns `p`. -/
theorem C5_size_offset_consistency (M : Metrics) (ops : List TLOp)
    (text : List Nat) (fontFile : String) (fontPoint : Int) (color : String)
    (imgW imgH : Int) (tl : TextLine) (p : Int) :
    sizeConsistent M
      (runOps M ops (mkTextLine M text fontFile fontPoint color imgW imgH)) ∧
    TextLine.getFontPoint (TextLine.setFontPoint M tl p) = p :=
  ⟨runOps_consistent M ops _ (sizeConsistent_setSize M _), rfl⟩

/-- C10: `setBorderSize None` and `setBorderColor None` are no-ops — the
falsy argument skips the assignment, so the whole entity (border fields
included) is returned unchanged. -/
theorem C10_border_setters_none_noop (tl : TextLine) :
    TextLine.setBorderSize tl none = tl ∧
    TextLine.setBorderColor tl none = tl :=
  ⟨rfl, rfl⟩

/-- C1 (code behavior at the claim's failing inputs): the source bound check
`0 > x > width or 0 > y > height` is vacuously false for every finite
position against the 100 x 100 image, so `setPos` stores clearly
out-of-bounds positions (negative, and beyond the image edge) instead of
raising. -/
theorem C1_setPos_accepts_out_of_bounds :
    Option.map TextLine.position (TextLine.setPos tlA (-5, 10)) =
      some (some (-5, 10)) ∧
    Option.map TextLine.position (TextLine.setPos tlA (205, 10)) =
      some (some (205, 10)) ∧
    Option.map TextLine.position (TextLine.setPos tlA (10, -5)) =
      some (some (10, -5)) ∧
    Option.map TextLine.position (TextLine.setPos tlA (10, 205)) =
      some (some (10, 205)) := by
  decide

/-- C7 (code behavior at the claim's failing input): a TextLine whose text
is a single space has an empty composition, yet `getLeadingOffset` does not
fail — the `searchMetric` sentinel `sys.maxsize` survives the empty fold and
is silently returned (minus the line's own vertical offset, 0 here). -/
theorem C7_empty_composition_silent :
    TextLine.getAsciiRange tlSpace = [] ∧
    Option.map Prod.fst (getLeadingOffset M0 [] tlSpace) = some MAXSIZE := by
  decide

/-- C8: with the index constants AMPM = 0, TIME = 1, DATE = 3,
`combineTimeAmPm` rewrites the time line's text to the (optionally
colon-spaced) time text, a space, and the AM/PM text; deletes the AM/PM
line, shrinking the list by exactly one; and decrements the TIME and DATE
indices so they address the combined line and the shifted date line. -/
theorem C8_combineTimeAmPm (M : Metrics) (a t d2 d3 : TextLine)
    (rest : List TextLine) (cs : Bool) :
    combineTimeAmPm M 0 1 3 (a :: t :: d2 :: d3 :: rest) cs =
      ⟨TextLine.setText M t
          ((if cs then replaceColonSpaced t.text else t.text) ++ [32] ++
            a.text) :: d2 :: d3 :: rest,
        none, 0, 2,
        TextLine.setText M t
          ((if cs then replaceColonSpaced t.text else t.text) ++ [32] ++
            a.text)⟩ ∧
    (combineTimeAmPm M 0 1 3 (a :: t :: d2 :: d3 :: rest) cs).lines.length +
        1 = (a :: t :: d2 :: d3 :: rest).length ∧
    (combineTimeAmPm M 0 1 3 (a :: t :: d2 :: d3 :: rest) cs).lines.getD 2
        default = d3 ∧
    (combineTimeAmPm M 0 1 3 (a :: t :: d2 :: d3 :: rest) cs).lines.getD 0
        default =
      (combineTimeAmPm M 0 1 3 (a :: t :: d2 :: d3 :: rest) cs).combined :=
  ⟨rfl, rfl, rfl, rfl⟩

/-- C9: the date string 2024-07-04_1530 parses to 12-hour time 03:30, AM/PM
marker PM, zero-padded day 04, day-of-week THU, month JUL and year 2024. -/
theorem C9_parseDate_scenarioA :
    parseDate dateA =
      some { time_12hr := "03:30", am_pm := "PM", date := "04",
             day_of_week_abr := "THU", month_abr := "JUL",
             year := "2024" } := by
  decide

/-- `setFontPoint` stores the new font point. -/
theorem setFontPoint_fontPoint (M : Metrics) (tl : TextLine) (p : Int) :
    (TextLine.setFontPoint M tl p).fontPoint = p := rfl

/-- `setFontPoint` leaves the text unchanged. -/
theorem setFontPoint_text (M : Metrics) (tl : TextLine) (p : Int) :
    (TextLine.setFontPoint M tl p).text = tl.text := rfl

/-- `setFontPoint` leaves the font file unchanged. -/
theorem setFontPoint_fontFile (M : Metrics) (tl : TextLine) (p : Int) :
    (TextLine.setFontPoint M tl p).fontFile = tl.fontFile := rfl

/-- The width stored by `setFontPoint` is the measured width of the same
text at the new point. -/
theorem setFontPoint_size1 (M : Metrics) (tl : TextLine) (p : Int) :
    (TextLine.setFontPoint M tl p).size.1 =
      lineWidth M tl.fontFile tl.text p := rfl

/-- A truthy accumulator stops the leading-offset cache scan immediately. -/
theorem loScan_truthy (tl : TextLine) (l : List (TextLine × Int))
    (acc : Option Int) (h : loTruthy acc = true) : loScan tl l acc = acc := by
  cases l with
  | nil => rfl
  | cons e rest => simp [loScan, h]

/-- While the accumulator is falsy, its exact falsy value (`None` versus
`0`) does not affect the truthiness of the scan result. -/
theorem loScan_falsy_truthiness (tl : TextLine) :
    ∀ (l : List (TextLine × Int)) (acc : Option Int),
      loTruthy acc = false →
      loTruthy (loScan tl l acc) = loTruthy (loScan tl l none) := by
  intro l
  induction l with
  | nil =>
    intro acc h
    simp only [loScan]
    rw [h]
    rfl
  | cons e rest ih =>
    intro acc h
    have hnone : loTruthy (none : Option Int) = false := rfl
    by_cases hm : TextLine.compareStyle tl e.1 = true
    · simp only [loScan, h, hnone, Bool.false_eq_true, if_false, hm, if_true]
    · simp only [loScan, h, hnone, Bool.false_eq_true, if_false, hm]
      exact ih acc h

/-- Scanning a block of entries whose style-matching results are all zero
keeps the accumulator falsy. -/
theorem loScan_append_falsy (tl : TextLine) :
    ∀ (l rest : List (TextLine × Int)) (acc : Option Int),
      loTruthy acc = false →
      (∀ p ∈ l, TextLine.compareStyle tl p.1 = true → p.2 = 0) →
      ∃ acc2, loTruthy acc2 = false ∧
        loScan tl (l ++ rest) acc = loScan tl rest acc2 := by
  intro l
  induction l with
  | nil =>
    intro rest acc h _
    exact ⟨acc, h, rfl⟩
  | cons p l ih =>
    intro rest acc h hz
    by_cases hm : TextLine.compareStyle tl p.1 = true
    · have hp0 : p.2 = 0 := hz p (List.mem_cons_self p l) hm
      have step : loScan tl ((p :: l) ++ rest) acc =
          loScan tl (l ++ rest) (some p.2) := by
        simp [loScan, h, hm]
      rw [step, hp0]
      exact ih rest (some 0) rfl
        (fun q hq hmq => hz q (List.mem_cons_of_mem p hq) hmq)
    · have step : loScan tl ((p :: l) ++ rest) acc =
          loScan tl (l ++ rest) acc := by
        simp [loScan, h, hm]
      rw [step]
      exact ih rest acc h
        (fun q hq hmq => hz q (List.mem_cons_of_mem p hq) hmq)

/-- Style comparison depends only on the three style fields of the querying
line. -/
theorem compareStyle_congr (tl1 tl2 x : TextLine)
    (hff : tl1.fontFile = tl2.fontFile)
    (hfp : tl1.fontPoint = tl2.fontPoint) (hcol : tl1.color = tl2.color) :
    TextLine.compareStyle tl1 x = TextLine.compareStyle tl2 x := by
  unfold TextLine.compareStyle
  rw [hff, hfp, hcol]

/-- The leading-offset cache scan depends on the querying line only through
its style. -/
theorem loScan_congr (tl1 tl2 : TextLine)
    (hff : tl1.fontFile = tl2.fontFile)
    (hfp : tl1.fontPoint = tl2.fontPoint) (hcol : tl1.color = tl2.color) :
    ∀ (l : List (TextLine × Int)) (acc : Option Int),
      loScan tl1 l acc = loScan tl2 l acc := by
  intro l
  induction l with
  | nil => intro acc; rfl
  | cons e rest ih =>
    intro acc
    simp only [loScan, compareStyle_congr tl1 tl2 e.1 hff hfp hcol, ih]

/-- The single-character Y-offset measurement reduces to the backend getsize
of that character under the line's style. -/
theorem metricOf_Y (M : Metrics) (tl : TextLine) (c : Nat) :
    metricOf M tl TextMetric.Y_OFFSET c =
      (M.getsize tl.fontFile tl.fontPoint (cleanText [c])).2.2 := rfl

/-- `searchMetric` in SMALLEST mode is the fold of the pointwise minimum
over the composition, started at the `sys.maxsize` sentinel. -/
theorem searchMetric_smallest (M : Metrics) (tl : TextLine)
    (attrib : TextMetric) :
    TextLine.searchMetric M tl FindMetric.SMALLEST attrib =
      (TextLine.getAsciiRange tl).foldl
        (fun r c =>
          if metricOf M tl attrib c < r then metricOf M tl attrib c else r)
        MAXSIZE := by
  unfold TextLine.searchMetric
  show (TextLine.getAsciiRange tl).foldl
      (fun result code =>
        if metricOf M tl attrib code * (-1) > result * (-1) then
          metricOf M tl attrib code
        else result)
      MAXSIZE = _
  congr 1
  funext r c
  have hiff : (r * (-1) < metricOf M tl attrib c * (-1)) ↔
      (metricOf M tl attrib c < r) := by
    constructor <;> intro h <;> omega
  exact if_congr hiff rfl rfl

/-- The fold of the pointwise minimum either keeps its initial sentinel or
returns one of the mapped values, and it is a lower bound of all of them
(and of the sentinel). -/
theorem foldl_min_spec (g : Nat → Int) :
    ∀ (l : List Nat) (init : Int),
      (l.foldl (fun r c => if g c < r then g c else r) init = init ∨
        ∃ c ∈ l,
          l.foldl (fun r c => if g c < r then g c else r) init = g c) ∧
      l.foldl (fun r c => if g c < r then g c else r) init ≤ init ∧
      ∀ c ∈ l,
        l.foldl (fun r c => if g c < r then g c else r) init ≤ g c := by
  intro l
  induction l with
  | nil =>
    intro init
    refine ⟨Or.inl rfl, le_refl _, ?_⟩
    intro c hc
    simp at hc
  | cons x xs ih =>
    intro init
    have hfold :
        (x :: xs).foldl (fun r c => if g c < r then g c else r) init =
          xs.foldl (fun r c => if g c < r then g c else r)
            (if g x < init then g x else init) := rfl
    obtain ⟨h1, h2, h3⟩ := ih (if g x < init then g x else init)
    have hinit_le : (if g x < init then g x else init) ≤ init := by
      split <;> omega
    have hinit_le_gx : (if g x < init then g x else init) ≤ g x := by
      split <;> omega
    refine ⟨?_, ?_, ?_⟩
    · rcases h1 with heq | ⟨c, hc, heq⟩
      · by_cases hx : g x < init
        · right
          refine ⟨x, List.mem_cons_self x xs, ?_⟩
          rw [hfold, heq, if_pos hx]
        · left
          rw [hfold, heq, if_neg hx]
      · right
        exact ⟨c, List.mem_cons_of_mem x hc, by rw [hfold]; exact heq⟩
    · rw [hfold]
      exact le_trans h2 hinit_le
    · intro c hc
      rcases List.mem_cons.mp hc with rfl | hc2
      · rw [hfold]
        exact le_trans h2 hinit_le_gx
      · rw [hfold]
        exact h3 c hc2

/-- On a non-empty composition whose measurements stay below the sentinel,
`searchMetric SMALLEST` attains and lower-bounds the measurements: it is
their minimum. -/
theorem searchMetric_min (M : Metrics) (tl : TextLine) (attrib : TextMetric)
    (hne : TextLine.getAsciiRange tl ≠ [])
    (hlt : ∀ c ∈ TextLine.getAsciiRange tl,
      metricOf M tl attrib c < MAXSIZE) :
    (∃ c ∈ TextLine.getAsciiRange tl,
      TextLine.searchMetric M tl FindMetric.SMALLEST attrib =
        metricOf M tl attrib c) ∧
    ∀ c ∈ TextLine.getAsciiRange tl,
      TextLine.searchMetric M tl FindMetric.SMALLEST attrib ≤
        metricOf M tl attrib c := by
  rw [searchMetric_smallest]
  obtain ⟨h1, h2, h3⟩ := foldl_min_spec (metricOf M tl attrib)
    (TextLine.getAsciiRange tl) MAXSIZE
  rcases h1 with heq | hex
  · obtain ⟨c0, hc0⟩ := List.exists_mem_of_ne_nil _ hne
    have hle := h3 c0 hc0
    rw [heq] at hle
    exact absurd hle (not_le.mpr (hlt c0 hc0))
  · exact ⟨hex, h3⟩

/-- With a non-negative image, the vacuous chained-comparison guard of
`setPos` never fires: the position is always stored. -/
theorem setPos_some (tl : TextLine) (p : Int × Int) (hw : 0 ≤ tl.imgW)
    (hh : 0 ≤ tl.imgH) :
    TextLine.setPos tl p = some { tl with position := some p } := by
  have hcond : ¬((0 > p.1 ∧ p.1 > tl.imgW) ∨ (0 > p.2 ∧ p.2 > tl.imgH)) := by
    rintro (⟨h1, h2⟩ | ⟨h1, h2⟩) <;> omega
  unfold TextLine.setPos
  rw [if_neg hcond]

/-- A successful `setPos` stores exactly the given position. -/
theorem setPos_eq_some (tl c : TextLine) (p : Int × Int)
    (h : TextLine.setPos tl p = some c) :
    c = { tl with position := some p } := by
  unfold TextLine.setPos at h
  split at h
  · exact absurd h (by simp)
  · exact (Option.some.injEq _ _ ▸ h).symm

/-- With a non-negative image, `TextLine.copy` always succeeds. -/
theorem copy_isSome (M : Metrics) (tl : TextLine) (hw : 0 ≤ tl.imgW)
    (hh : 0 ≤ tl.imgH) : ∃ c, TextLine.copy M tl = some c := by
  unfold TextLine.copy
  cases hpos : tl.position with
  | none =>
    simp only [hpos]
    exact ⟨_, rfl⟩
  | some p =>
    simp only [hpos]
    rw [setPos_some (mkTextLine M tl.text tl.fontFile tl.fontPoint tl.color
      tl.imgW tl.imgH) p hw hh]
    exact ⟨_, rfl⟩

/-- A successful copy preserves the three style fields. -/
theorem copy_style (M : Metrics) (tl c : TextLine)
    (h : TextLine.copy M tl = some c) :
    c.fontFile = tl.fontFile ∧ c.fontPoint = tl.fontPoint ∧
      c.color = tl.color := by
  unfold TextLine.copy at h
  cases hpos : tl.position with
  | none =>
    simp only [hpos] at h
    cases hbs : tl.borderSize <;> cases hbc : tl.borderColor <;>
        simp only [hbs, hbc, TextLine.setBorderSize,
          TextLine.setBorderColor] at h <;>
      repeat' split at h
    all_goals injection h with h
    all_goals subst h
    all_goals exact ⟨rfl, rfl, rfl⟩
  | some p =>
    simp only [hpos] at h
    cases hsp : TextLine.setPos (mkTextLine M tl.text tl.fontFile
        tl.fontPoint tl.color tl.imgW tl.imgH) p with
    | none =>
      rw [hsp] at h
      exact absurd h (by simp)
    | some c1 =>
      rw [hsp] at h
      have hc1 := setPos_eq_some _ _ _ hsp
      subst hc1
      cases hbs : tl.borderSize <;> cases hbc : tl.borderColor <;>
          simp only [hbs, hbc, TextLine.setBorderSize,
            TextLine.setBorderColor] at h <;>
        repeat' split at h
      all_goals injection h with h
      all_goals subst h
      all_goals exact ⟨rfl, rfl, rfl⟩

/-- C3: on a cache miss (the scanned accumulator is falsy), for a line with
non-empty composition whose measurements stay below the sentinel, and whose
image dimensions are non-negative so the internal copy succeeds,
`getLeadingOffset` returns the minimum single-character Y-offset measurement
over the predicted composition, minus the line's own current vertical
offset. -/
theorem C3_leadingOffset_min_on_miss (M : Metrics)
    (cache : List (TextLine × Int)) (tl : TextLine)
    (hmiss : loTruthy (loScan tl cache.reverse none) = false)
    (hw : 0 ≤ tl.imgW) (hh : 0 ≤ tl.imgH)
    (hne : TextLine.getAsciiRange tl ≠ [])
    (hlt : ∀ c ∈ TextLine.getAsciiRange tl,
      metricOf M tl TextMetric.Y_OFFSET c < MAXSIZE) :
    ∃ r newCache, getLeadingOffset M cache tl = some (r, newCache) ∧
      (∃ c ∈ TextLine.getAsciiRange tl,
        r = metricOf M tl TextMetric.Y_OFFSET c - tl.offset.2) ∧
      ∀ c ∈ TextLine.getAsciiRange tl,
        r ≤ metricOf M tl TextMetric.Y_OFFSET c - tl.offset.2 := by
  obtain ⟨cp, hcp⟩ := copy_isSome M tl hw hh
  obtain ⟨⟨c0, hc0, he0⟩, hub⟩ :=
    searchMetric_min M tl TextMetric.Y_OFFSET hne hlt
  refine ⟨TextLine.searchMetric M tl FindMetric.SMALLEST TextMetric.Y_OFFSET
      - tl.offset.2,
    cache ++ [(cp, TextLine.searchMetric M tl FindMetric.SMALLEST
      TextMetric.Y_OFFSET)], ?_, ?_, ?_⟩
  · simp [getLeadingOffset, hmiss, hcp]
  · exact ⟨c0, hc0, by rw [he0]⟩
  · intro c hc
    have := hub c hc
    omega

/-- C3 witness: a concrete miss on the empty cache for the line `"A"` under
the zero backend. -/
theorem C3_witness :
    loTruthy (loScan tlA (List.reverse ([] : List (TextLine × Int))) none) =
      false ∧
    TextLine.getAsciiRange tlA ≠ [] ∧
    (∃ r newCache, getLeadingOffset M0 [] tlA = some (r, newCache) ∧
      (∃ c ∈ TextLine.getAsciiRange tlA,
        r = metricOf M0 tlA TextMetric.Y_OFFSET c - tlA.offset.2) ∧
      ∀ c ∈ TextLine.getAsciiRange tlA,
        r ≤ metricOf M0 tlA TextMetric.Y_OFFSET c - tlA.offset.2) :=
  ⟨by decide, by decide,
    C3_leadingOffset_min_on_miss M0 [] tlA (by decide) (by decide)
      (by decide) (by decide) (by decide)⟩

set_option maxRecDepth 8000 in
/-- C2 counterexample: under a backend where the literal text `"9:15"`
measures with a different own vertical offset than `"10:15"`, two style-equal
lines with identical compositions get different leading offsets — the claim
as stated fails because `getLeadingOffset` subtracts the line's own
text-dependent offset. -/
theorem C2_counterexample :
    TextLine.compareStyle tl915 tl1015 = true ∧
    TextLine.getAsciiRange tl915 = TextLine.getAsciiRange tl1015 ∧
    Option.map Prod.fst (getLeadingOffset Mcx [] tl915) ≠
      Option.map Prod.fst (getLeadingOffset Mcx [] tl1015) := by
  decide

/-- C2 (amended): for two TextLines of identical style and identical
composition, `getLeadingOffset` computes the same value provided the two
lines' own measured vertical offsets also agree (as they do for fonts that
render all characters of a class with the same top bearing, the repository's
stated font requirement) — even sequentially, querying the second line
against the cache produced by the first call. -/
theorem C2_leadingOffset_composition_amended
    (M : Metrics) (cache : List (TextLine × Int)) (tl1 tl2 : TextLine)
    (hff : tl1.fontFile = tl2.fontFile)
    (hfp : tl1.fontPoint = tl2.fontPoint) (hcol : tl1.color = tl2.color)
    (hcomp : TextLine.getAsciiRange tl1 = TextLine.getAsciiRange tl2)
    (hoff : tl1.offset.2 = tl2.offset.2)
    (hw2 : 0 ≤ tl2.imgW) (hh2 : 0 ≤ tl2.imgH)
    (v1 : Int) (c1 : List (TextLine × Int))
    (h1 : getLeadingOffset M cache tl1 = some (v1, c1)) :
    Option.map Prod.fst (getLeadingOffset M c1 tl2) = some v1 := by
  have hsm : TextLine.searchMetric M tl1 FindMetric.SMALLEST
      TextMetric.Y_OFFSET =
      TextLine.searchMetric M tl2 FindMetric.SMALLEST TextMetric.Y_OFFSET := by
    rw [searchMetric_smallest, searchMetric_smallest, hcomp]
    congr 1
    funext r c
    rw [metricOf_Y, metricOf_Y, hff, hfp]
  cases hs : loTruthy (loScan tl1 cache.reverse none) with
  | true =>
    simp only [getLeadingOffset, hs, if_true] at h1
    rw [Option.some.injEq, Prod.mk.injEq] at h1
    obtain ⟨hv, hc⟩ := h1
    subst hc
    have hscan2 : loScan tl2 cache.reverse none =
        loScan tl1 cache.reverse none :=
      (loScan_congr tl1 tl2 hff hfp hcol _ _).symm
    simp only [getLeadingOffset, hscan2, hs, if_true, Option.map_some']
    rw [Option.some.injEq, ← hoff]
    exact hv
  | false =>
    cases hcp : TextLine.copy M tl1 with
    | none => simp [getLeadingOffset, hs, hcp] at h1
    | some cp1 =>
      simp only [getLeadingOffset, hs, Bool.false_eq_true, if_false,
        hcp] at h1
      rw [Option.some.injEq, Prod.mk.injEq] at h1
      obtain ⟨hv, hc⟩ := h1
      subst hc
      obtain ⟨hcpff, hcpfp, hcpcol⟩ := copy_style M tl1 cp1 hcp
      have hstyle2 : TextLine.compareStyle tl2 cp1 = true := by
        simp [TextLine.compareStyle, hcpff, hcpfp, hcpcol, ← hff, ← hfp,
          ← hcol]
      have hrev : (cache ++ [(cp1, TextLine.searchMetric M tl1
          FindMetric.SMALLEST TextMetric.Y_OFFSET)]).reverse =
          (cp1, TextLine.searchMetric M tl1 FindMetric.SMALLEST
            TextMetric.Y_OFFSET) :: cache.reverse := by
        simp
      by_cases hsm0 : TextLine.searchMetric M tl1 FindMetric.SMALLEST
          TextMetric.Y_OFFSET = 0
      · have hstep : loScan tl2 ((cp1, TextLine.searchMetric M tl1
            FindMetric.SMALLEST TextMetric.Y_OFFSET) :: cache.reverse)
            none = loScan tl2 cache.reverse
              (some (TextLine.searchMetric M tl1 FindMetric.SMALLEST
                TextMetric.Y_OFFSET)) := by
          simp [loScan, loTruthy, hstyle2]
        have hfal : loTruthy (loScan tl2 cache.reverse
            (some (TextLine.searchMetric M tl1 FindMetric.SMALLEST
              TextMetric.Y_OFFSET))) = false := by
          rw [loScan_falsy_truthiness tl2 _ _ (by simp [loTruthy, hsm0])]
          rw [loScan_congr tl2 tl1 hff.symm hfp.symm hcol.symm]
          exact hs
        have hf2 : loTruthy (loScan tl2 ((cp1, TextLine.searchMetric M tl1
            FindMetric.SMALLEST TextMetric.Y_OFFSET) :: cache.reverse)
            none) = false := by
          rw [hstep]
          exact hfal
        obtain ⟨cp2, hcp2⟩ := copy_isSome M tl2 hw2 hh2
        simp only [getLeadingOffset, hrev, hf2, Bool.false_eq_true,
          if_false, hcp2, Option.map_some']
        rw [Option.some.injEq]
        rw [← hsm, ← hoff]
        exact hv
      · have hstruthy : loTruthy (some (TextLine.searchMetric M tl1
            FindMetric.SMALLEST TextMetric.Y_OFFSET)) = true := by
          simp [loTruthy, hsm0]
        have hscan : loScan tl2 ((cp1, TextLine.searchMetric M tl1
            FindMetric.SMALLEST TextMetric.Y_OFFSET) :: cache.reverse)
            none = some (TextLine.searchMetric M tl1 FindMetric.SMALLEST
              TextMetric.Y_OFFSET) := by
          have hstep : loScan tl2 ((cp1, TextLine.searchMetric M tl1
              FindMetric.SMALLEST TextMetric.Y_OFFSET) :: cache.reverse)
              none = loScan tl2 cache.reverse
                (some (TextLine.searchMetric M tl1 FindMetric.SMALLEST
                  TextMetric.Y_OFFSET)) := by
            simp [loScan, loTruthy, hstyle2]
          rw [hstep]
          exact loScan_truthy tl2 _ _ hstruthy
        simp only [getLeadingOffset, hrev, hscan, hstruthy, if_true,
          Option.map_some']
        rw [Option.some.injEq]
        show TextLine.searchMetric M tl1 FindMetric.SMALLEST
          TextMetric.Y_OFFSET - tl2.offset.2 = v1
        rw [← hoff]
        exact hv

set_option maxRecDepth 8000 in
/-- C2 witness: the amended theorem applied to the style-equal lines
`"9:15"` and `"10:15"` under the zero backend, where the own offsets agree;
the sequential second query returns the same leading offset 0. -/
theorem C2_witness :
    tl915z.fontFile = tl1015z.fontFile ∧
    TextLine.getAsciiRange tl915z = TextLine.getAsciiRange tl1015z ∧
    tl915z.offset.2 = tl1015z.offset.2 ∧
    Option.map Prod.fst (getLeadingOffset M0 [(tl915z, 0)] tl1015z) =
      some 0 :=
  ⟨rfl, by decide, rfl,
    C2_leadingOffset_composition_amended M0 [] tl915z tl1015z rfl rfl rfl
      (by decide) rfl (by decide) (by decide) 0 [(tl915z, 0)] (by decide)⟩

/-- A truthy accumulator stops the resize cache scan immediately. -/
theorem rzScan_truthy (M : Metrics) (tc : TextLine) (mode : Resize)
    (l : List RzEntry) (acc : Option (Int × ((Int × Int) × (Int × Int))))
    (tr : TextLine) (h : rzTruthy acc = true) :
    rzScan M tc mode l acc tr = (acc, tr) := by
  cases l with
  | nil => rfl
  | cons e rest => simp [rzScan, h]

/-- While the accumulator is falsy, scanning a block of entries that do not
match the current (possibly already mutated) `toResize` changes nothing. -/
theorem rzScan_nomatch (M : Metrics) (tc : TextLine) (mode : Resize)
    (tr : TextLine) :
    ∀ (l rest : List RzEntry) (acc : Option (Int × ((Int × Int) ×
      (Int × Int)))),
      rzTruthy acc = false →
      (∀ p ∈ l, (TextLine.compareStyle tr p.toResize &&
        TextLine.compareStyle tc p.toCompare && mode == p.mode) = false) →
      rzScan M tc mode (l ++ rest) acc tr =
        rzScan M tc mode rest acc tr := by
  intro l
  induction l with
  | nil => intro rest acc _ _; rfl
  | cons p l ih =>
    intro rest acc hacc hz
    have hp := hz p (List.mem_cons_self p l)
    simp only [List.cons_append, rzScan, hacc, hp, Bool.false_eq_true,
      if_false]
    exact ih rest acc hacc (fun q hq => hz q (List.mem_cons_of_mem p hq))

/-- C6 (amended): each cache lookup scans the append-only list
newest-to-oldest with style-equality matching, and the most recent
style-equal entry wins only when its stored result is non-zero (the Python
falsy check).  In the leading-offset cache an entry whose cached offset is 0
is skipped transparently: an older style-equal entry with a non-zero offset
wins, or the offset is recomputed.  In the resize cache, the most recent
matching entry is served (cached difference returned, cached font point
re-applied) when its font point is non-zero; but a most-recent matching
entry whose cached font point is 0 first re-applies `setFontPoint(0)` to
`toResize`, so older entries — keyed at non-zero font points — no longer
style-match the mutated line and the result is recomputed from font point 0
instead of being served from any older entry. -/
theorem C6_cache_falsy_scan_amended
    (M : Metrics) (fuel : Nat)
    (cache : List (TextLine × Int)) (tl key : TextLine) (v : Int)
    (pre post : List (TextLine × Int))
    (rcache : List RzEntry) (toResize toCompare : TextLine) (mode : Resize)
    (rpre rpost : List RzEntry) (e e0 : RzEntry)
    (trc tcc tr2 : TextLine) (dif : (Int × Int) × (Int × Int)) :
    (cache = pre ++ (key, v) :: post →
      TextLine.compareStyle tl key = true → v ≠ 0 →
      (∀ p ∈ post, TextLine.compareStyle tl p.1 = true → p.2 = 0) →
      getLeadingOffset M cache tl = some (v - tl.offset.2, cache)) ∧
    (rcache = rpre ++ e :: rpost →
      (TextLine.compareStyle toResize e.toResize &&
        TextLine.compareStyle toCompare e.toCompare && mode == e.mode) =
        true →
      e.newFontPoint ≠ 0 →
      (∀ p ∈ rpost, (TextLine.compareStyle toResize p.toResize &&
        TextLine.compareStyle toCompare p.toCompare && mode == p.mode) =
        false) →
      resizeTextLine M fuel rcache toResize toCompare mode =
        some (e.sizeDif, TextLine.setFontPoint M toResize e.newFontPoint,
          rcache)) ∧
    (rcache = rpre ++ e0 :: rpost →
      (TextLine.compareStyle toResize e0.toResize &&
        TextLine.compareStyle toCompare e0.toCompare && mode == e0.mode) =
        true →
      e0.newFontPoint = 0 →
      (∀ p ∈ rpost, (TextLine.compareStyle toResize p.toResize &&
        TextLine.compareStyle toCompare p.toCompare && mode == p.mode) =
        false) →
      (∀ p ∈ rpre, p.toResize.fontPoint ≠ 0) →
      TextLine.copy M (TextLine.setFontPoint M toResize 0) = some trc →
      TextLine.copy M toCompare = some tcc →
      TextLine.resize M fuel (TextLine.setFontPoint M toResize 0) toCompare
        mode = some (tr2, dif) →
      resizeTextLine M fuel rcache toResize toCompare mode =
        some (dif, tr2,
          rcache ++ [⟨trc, tcc, mode, tr2.fontPoint, dif⟩])) := by
  refine ⟨?_, ?_, ?_⟩
  · intro hc hm hv hz
    subst hc
    have hrev : (pre ++ (key, v) :: post).reverse =
        post.reverse ++ ((key, v) :: pre.reverse) := by
      simp
    have hz2 : ∀ p ∈ post.reverse,
        TextLine.compareStyle tl p.1 = true → p.2 = 0 := by
      intro p hp
      exact hz p (List.mem_reverse.mp hp)
    obtain ⟨acc2, hacc2, heq⟩ := loScan_append_falsy tl post.reverse
      ((key, v) :: pre.reverse) none rfl hz2
    have hstep : loScan tl ((key, v) :: pre.reverse) acc2 =
        loScan tl pre.reverse (some v) := by
      simp [loScan, hacc2, hm]
    have hfinal : loScan tl (post.reverse ++ (key, v) :: pre.reverse)
        none = some v := by
      rw [heq, hstep]
      exact loScan_truthy tl _ _ (by simp [loTruthy, hv])
    have htruthy : loTruthy (some v) = true := by simp [loTruthy, hv]
    simp [getLeadingOffset, hfinal, htruthy]
  · intro hc hm hv hz
    subst hc
    have hrev : (rpre ++ e :: rpost).reverse =
        rpost.reverse ++ (e :: rpre.reverse) := by
      simp
    have hz2 : ∀ p ∈ rpost.reverse,
        (TextLine.compareStyle toResize p.toResize &&
          TextLine.compareStyle toCompare p.toCompare && mode == p.mode) =
          false :=
      fun p hp => hz p (List.mem_reverse.mp hp)
    have hscan : rzScan M toCompare mode
        (rpost.reverse ++ e :: rpre.reverse) none toResize =
          (some (e.newFontPoint, e.sizeDif),
            TextLine.setFontPoint M toResize e.newFontPoint) := by
      rw [rzScan_nomatch M toCompare mode toResize rpost.reverse _ none rfl
        hz2]
      have hstep : rzScan M toCompare mode (e :: rpre.reverse) none
          toResize = rzScan M toCompare mode rpre.reverse
            (some (e.newFontPoint, e.sizeDif))
            (TextLine.setFontPoint M toResize e.newFontPoint) := by
        simp [rzScan, rzTruthy, hm]
      rw [hstep]
      exact rzScan_truthy M toCompare mode _ _ _ (by simp [rzTruthy, hv])
    simp [resizeTextLine, hscan, rzTruthy, hv]
  · intro hc hm hnfp0 hz hpre hcopy1 hcopy2 hresize
    subst hc
    have hz2 : ∀ p ∈ rpost.reverse,
        (TextLine.compareStyle toResize p.toResize &&
          TextLine.compareStyle toCompare p.toCompare && mode == p.mode) =
          false :=
      fun p hp => hz p (List.mem_reverse.mp hp)
    have hz3 : ∀ p ∈ rpre.reverse,
        (TextLine.compareStyle (TextLine.setFontPoint M toResize 0)
          p.toResize && TextLine.compareStyle toCompare p.toCompare &&
          mode == p.mode) = false := by
      intro p hp
      have hne := hpre p (List.mem_reverse.mp hp)
      have hbeq : ((TextLine.setFontPoint M toResize 0).fontPoint ==
          p.toResize.fontPoint) = false := by
        rw [setFontPoint_fontPoint]
        exact beq_eq_false_iff_ne.mpr (fun h => hne h.symm)
      simp [TextLine.compareStyle, hbeq]
    have hacc0 : rzTruthy (some ((0 : Int), e0.sizeDif)) = false := by
      simp [rzTruthy]
    have hscan : rzScan M toCompare mode
        (rpost.reverse ++ e0 :: rpre.reverse) none toResize =
          (some (0, e0.sizeDif), TextLine.setFontPoint M toResize 0) := by
      rw [rzScan_nomatch M toCompare mode toResize rpost.reverse _ none rfl
        hz2]
      have hstep : rzScan M toCompare mode (e0 :: rpre.reverse) none
          toResize = rzScan M toCompare mode rpre.reverse
            (some (e0.newFontPoint, e0.sizeDif))
            (TextLine.setFontPoint M toResize e0.newFontPoint) := by
        simp [rzScan, rzTruthy, hm]
      rw [hstep, hnfp0]
      rw [show rpre.reverse = rpre.reverse ++ ([] : List RzEntry) from
        (List.append_nil _).symm]
      rw [rzScan_nomatch M toCompare mode
        (TextLine.setFontPoint M toResize 0) rpre.reverse []
        (some (0, e0.sizeDif)) hacc0 hz3]
      rfl
    simp [resizeTextLine, hscan, rzTruthy, hcopy1, hcopy2, hresize]

/-- C6 counterexample: in the leading-offset cache, the most recent
style-equal entry for `tlA` carries the result 0, yet the lookup serves the
older entry's result 5 — the falsy check skips zero results, so the claim
that the most recent style-equal entry always wins fails. -/
theorem C6_counterexample :
    [(tlA, (5 : Int)), (tlA, 0)].getLast? = some (tlA, 0) ∧
    TextLine.compareStyle tlA tlA = true ∧
    Option.map Prod.fst (getLeadingOffset M0 [(tlA, 5), (tlA, 0)] tlA) =
      some 5 ∧
    Option.map Prod.fst (getLeadingOffset M0 [(tlA, 5), (tlA, 0)] tlA) ≠
      some (0 - tlA.offset.2) := by
  decide

/-- C6 witness: the amended lookup semantics evaluated concretely — in the
leading-offset cache the newer zero entry is skipped in favor of the older
non-zero one; the resize cache serves its most recent matching non-zero
entry; and a most-recent matching entry with cached font point 0 re-applies
`setFontPoint(0)`, so the older non-zero entry `rzE` is not served and the
difference is recomputed from font point 0 (growing 0 to 6). -/
theorem C6_witness :
    getLeadingOffset M0 [(tlA, 7), (tlA, 0)] tlA =
      some (7 - tlA.offset.2, [(tlA, 7), (tlA, 0)]) ∧
    resizeTextLine Mlin 10 [rzE] trW tcW Resize.GROW =
      some (rzE.sizeDif, TextLine.setFontPoint Mlin trW rzE.newFontPoint,
        [rzE]) ∧
    resizeTextLine Mlin 10 [rzE, rzE0] trW tcW Resize.GROW =
      some (((6, 0), (0, 0)), tcW,
        [rzE, rzE0] ++ [⟨trc0, tcW, Resize.GROW, tcW.fontPoint,
          ((6, 0), (0, 0))⟩]) :=
  ⟨(C6_cache_falsy_scan_amended M0 10 [(tlA, 7), (tlA, 0)] tlA tlA 7 []
      [(tlA, 0)] [rzE] trW tcW Resize.GROW [] [] rzE rzE0 trc0 tcW tcW
      ((6, 0), (0, 0))).1 rfl (by decide) (by decide) (by decide),
    (C6_cache_falsy_scan_amended Mlin 10 [(tlA, 7), (tlA, 0)] tlA tlA 7 []
      [(tlA, 0)] [rzE] trW tcW Resize.GROW [] [] rzE rzE0 trc0 tcW tcW
      ((6, 0), (0, 0))).2.1 rfl (by decide) (by decide) (by decide),
    (C6_cache_falsy_scan_amended Mlin 10 [(tlA, 7), (tlA, 0)] tlA tlA 7 []
      [(tlA, 0)] [rzE, rzE0] trW tcW Resize.GROW [rzE] [] rzE rzE0 trc0 tcW
      tcW ((6, 0), (0, 0))).2.2 rfl (by decide) rfl (by decide) (by decide)
      (by decide) (by decide) (by decide)⟩

/-- A successful GROW loop has reached at least the target width and never
decreased the width; text and font file are untouched. -/
theorem resizeLoopGrow_sound (M : Metrics) (target : Int) :
    ∀ (fuel : Nat) (tr tr2 : TextLine),
      resizeLoopGrow M target fuel tr = some tr2 →
      target ≤ tr2.size.1 ∧ tr.size.1 ≤ tr2.size.1 ∧
        tr2.text = tr.text ∧ tr2.fontFile = tr.fontFile := by
  intro fuel
  induction fuel with
  | zero =>
    intro tr tr2 h
    simp only [resizeLoopGrow] at h
    split at h
    · exact absurd h (by simp)
    · injection h with h
      subst h
      exact ⟨by omega, le_refl _, rfl, rfl⟩
  | succ fuel ih =>
    intro tr tr2 h
    simp only [resizeLoopGrow] at h
    split at h
    · obtain ⟨h1, h2, h3, h4⟩ := ih _ tr2 h
      exact ⟨h1, by omega, h3, h4⟩
    · injection h with h
      subst h
      exact ⟨by omega, le_refl _, rfl, rfl⟩

/-- A successful GROW loop either never stepped, or its last step crossed
the target: the width one point below the final point is under the
target. -/
theorem resizeLoopGrow_step (M : Metrics) (target : Int) :
    ∀ (fuel : Nat) (tr tr2 : TextLine),
      tr.size.1 = lineWidth M tr.fontFile tr.text tr.fontPoint →
      resizeLoopGrow M target fuel tr = some tr2 →
      tr2.fontPoint = tr.fontPoint ∨
        lineWidth M tr.fontFile tr.text (tr2.fontPoint - 1) < target := by
  intro fuel
  induction fuel with
  | zero =>
    intro tr tr2 hcons h
    simp only [resizeLoopGrow] at h
    split at h
    · exact absurd h (by simp)
    · injection h with h
      subst h
      exact Or.inl rfl
  | succ fuel ih =>
    intro tr tr2 hcons h
    simp only [resizeLoopGrow] at h
    split at h
    · rcases ih (TextLine.setFontPoint M tr (tr.fontPoint + 1)) tr2 rfl h
        with heq | hlt
      · right
        have h5 : tr2.fontPoint = tr.fontPoint + 1 := heq
        rw [h5]
        have h6 : tr.fontPoint + 1 - 1 = tr.fontPoint := by omega
        rw [h6, ← hcons]
        assumption
      · right
        exact hlt
    · injection h with h
      subst h
      exact Or.inl rfl

/-- If within the fuel bound some larger point reaches the target width, the
GROW loop terminates. -/
theorem resizeLoopGrow_term (M : Metrics) (target : Int) :
    ∀ (fuel n : Nat) (tr : TextLine),
      n ≤ fuel →
      tr.size.1 = lineWidth M tr.fontFile tr.text tr.fontPoint →
      target ≤ lineWidth M tr.fontFile tr.text (tr.fontPoint + (n : Int)) →
      ∃ tr2, resizeLoopGrow M target fuel tr = some tr2 := by
  intro fuel
  induction fuel with
  | zero =>
    intro n tr hn hcons hterm
    have hn0 : n = 0 := by omega
    subst hn0
    simp only [Nat.cast_zero, add_zero] at hterm
    refine ⟨tr, ?_⟩
    simp only [resizeLoopGrow]
    rw [if_neg (by omega)]
  | succ fuel ih =>
    intro n tr hn hcons hterm
    by_cases hlt : tr.size.1 < target
    · cases n with
      | zero =>
        simp only [Nat.cast_zero, add_zero] at hterm
        exact absurd hterm (by omega)
      | succ m =>
        have hcast : tr.fontPoint + ((m + 1 : Nat) : Int) =
            (tr.fontPoint + 1) + (m : Int) := by
          push_cast
          ring
        rw [hcast] at hterm
        obtain ⟨tr2, htr2⟩ := ih m
          (TextLine.setFontPoint M tr (tr.fontPoint + 1)) (by omega) rfl
          hterm
        refine ⟨tr2, ?_⟩
        simp only [resizeLoopGrow]
        rw [if_pos hlt]
        exact htr2
    · refine ⟨tr, ?_⟩
      simp only [resizeLoopGrow]
      rw [if_neg hlt]

/-- A successful SHRINK loop has come down to at most the target width and
never increased the width; text and font file are untouched. -/
theorem resizeLoopShrink_sound (M : Metrics) (target : Int) :
    ∀ (fuel : Nat) (tr tr2 : TextLine),
      resizeLoopShrink M target fuel tr = some tr2 →
      tr2.size.1 ≤ target ∧ tr2.size.1 ≤ tr.size.1 ∧
        tr2.text = tr.text ∧ tr2.fontFile = tr.fontFile := by
  intro fuel
  induction fuel with
  | zero =>
    intro tr tr2 h
    simp only [resizeLoopShrink] at h
    split at h
    · exact absurd h (by simp)
    · injection h with h
      subst h
      exact ⟨by omega, le_refl _, rfl, rfl⟩
  | succ fuel ih =>
    intro tr tr2 h
    simp only [resizeLoopShrink] at h
    split at h
    · obtain ⟨h1, h2, h3, h4⟩ := ih _ tr2 h
      exact ⟨h1, by omega, h3, h4⟩
    · injection h with h
      subst h
      exact ⟨by omega, le_refl _, rfl, rfl⟩

/-- A successful SHRINK loop either never stepped, or its last step crossed
the target: the width one point above the final point is over the target. -/
theorem resizeLoopShrink_step (M : Metrics) (target : Int) :
    ∀ (fuel : Nat) (tr tr2 : TextLine),
      tr.size.1 = lineWidth M tr.fontFile tr.text tr.fontPoint →
      resizeLoopShrink M target fuel tr = some tr2 →
      tr2.fontPoint = tr.fontPoint ∨
        target < lineWidth M tr.fontFile tr.text (tr2.fontPoint + 1) := by
  intro fuel
  induction fuel with
  | zero =>
    intro tr tr2 hcons h
    simp only [resizeLoopShrink] at h
    split at h
    · exact absurd h (by simp)
    · injection h with h
      subst h
      exact Or.inl rfl
  | succ fuel ih =>
    intro tr tr2 hcons h
    simp only [resizeLoopShrink] at h
    split at h
    · rcases ih (TextLine.setFontPoint M tr (tr.fontPoint - 1)) tr2 rfl h
        with heq | hlt
      · right
        have h5 : tr2.fontPoint = tr.fontPoint - 1 := heq
        rw [h5]
        have h6 : tr.fontPoint - 1 + 1 = tr.fontPoint := by omega
        rw [h6, ← hcons]
        assumption
      · right
        exact hlt
    · injection h with h
      subst h
      exact Or.inl rfl

/-- If within the fuel bound some smaller point comes down to the target
width, the SHRINK loop terminates. -/
theorem resizeLoopShrink_term (M : Metrics) (target : Int) :
    ∀ (fuel n : Nat) (tr : TextLine),
      n ≤ fuel →
      tr.size.1 = lineWidth M tr.fontFile tr.text tr.fontPoint →
      lineWidth M tr.fontFile tr.text (tr.fontPoint - (n : Int)) ≤ target →
      ∃ tr2, resizeLoopShrink M target fuel tr = some tr2 := by
  intro fuel
  induction fuel with
  | zero =>
    intro n tr hn hcons hterm
    have hn0 : n = 0 := by omega
    subst hn0
    simp only [Nat.cast_zero, sub_zero] at hterm
    refine ⟨tr, ?_⟩
    simp only [resizeLoopShrink]
    rw [if_neg (by omega)]
  | succ fuel ih =>
    intro n tr hn hcons hterm
    by_cases hgt : tr.size.1 > target
    · cases n with
      | zero =>
        simp only [Nat.cast_zero, sub_zero] at hterm
        exact absurd hterm (by omega)
      | succ m =>
        have hcast : tr.fontPoint - ((m + 1 : Nat) : Int) =
            (tr.fontPoint - 1) - (m : Int) := by
          push_cast
          ring
        rw [hcast] at hterm
        obtain ⟨tr2, htr2⟩ := ih m
          (TextLine.setFontPoint M tr (tr.fontPoint - 1)) (by omega) rfl
          hterm
        refine ⟨tr2, ?_⟩
        simp only [resizeLoopShrink]
        rw [if_pos hgt]
        exact htr2
    · refine ⟨tr, ?_⟩
      simp only [resizeLoopShrink]
      rw [if_neg hgt]

/-- C4: for a consistent `toResize` whose measured width reaches the
comparison width within the fuel bound in each direction (valid fonts in a
reasonable point range), `resize GROW` never decreases the width, `resize
SHRINK` never increases it, both terminate, and the final width lands on
the correct side of `toCompare`'s width within one point-size step. -/
theorem C4_resize_monotone (M : Metrics) (fuel : Nat) (tr tc : TextLine)
    (hcons : tr.size.1 = lineWidth M tr.fontFile tr.text tr.fontPoint)
    (hg : ∃ n : Nat, n ≤ fuel ∧
      tc.size.1 ≤ lineWidth M tr.fontFile tr.text
        (tr.fontPoint + (n : Int)))
    (hs : ∃ n : Nat, n ≤ fuel ∧
      lineWidth M tr.fontFile tr.text (tr.fontPoint - (n : Int)) ≤
        tc.size.1) :
    (∃ tr2 dif, TextLine.resize M fuel tr tc Resize.GROW =
        some (tr2, dif) ∧
      tr.size.1 ≤ tr2.size.1 ∧ tc.size.1 ≤ tr2.size.1 ∧
      (tr2.fontPoint = tr.fontPoint ∨
        lineWidth M tr.fontFile tr.text (tr2.fontPoint - 1) <
          tc.size.1)) ∧
    (∃ tr2 dif, TextLine.resize M fuel tr tc Resize.SHRINK =
        some (tr2, dif) ∧
      tr2.size.1 ≤ tr.size.1 ∧ tr2.size.1 ≤ tc.size.1 ∧
      (tr2.fontPoint = tr.fontPoint ∨
        tc.size.1 < lineWidth M tr.fontFile tr.text
          (tr2.fontPoint + 1))) := by
  constructor
  · obtain ⟨n, hn, hterm⟩ := hg
    obtain ⟨tr2, htr2⟩ :=
      resizeLoopGrow_term M tc.size.1 fuel n tr hn hcons hterm
    obtain ⟨h1, h2, h3, h4⟩ := resizeLoopGrow_sound M tc.size.1 fuel tr tr2
      htr2
    have hstep := resizeLoopGrow_step M tc.size.1 fuel tr tr2 hcons htr2
    refine ⟨tr2, ((tr2.size.1 - tr.size.1, tr2.size.2 - tr.size.2),
      (tr2.offset.1 - tr.offset.1, tr2.offset.2 - tr.offset.2)), ?_, h2, h1,
      hstep⟩
    simp [TextLine.resize, htr2]
  · obtain ⟨n, hn, hterm⟩ := hs
    obtain ⟨tr2, htr2⟩ :=
      resizeLoopShrink_term M tc.size.1 fuel n tr hn hcons hterm
    obtain ⟨h1, h2, h3, h4⟩ := resizeLoopShrink_sound M tc.size.1 fuel tr
      tr2 htr2
    have hstep := resizeLoopShrink_step M tc.size.1 fuel tr tr2 hcons htr2
    refine ⟨tr2, ((tr2.size.1 - tr.size.1, tr2.size.2 - tr.size.2),
      (tr2.offset.1 - tr.offset.1, tr2.offset.2 - tr.offset.2)), ?_, h2, h1,
      hstep⟩
    simp [TextLine.resize, htr2]

/-- C4 witness: under the linear backend (width = font point), growing the
width-3 line against the width-6 line and shrinking it terminate with the
claimed bounds. -/
theorem C4_witness :
    trW.size.1 = lineWidth Mlin trW.fontFile trW.text trW.fontPoint ∧
    tcW.size.1 ≤ lineWidth Mlin trW.fontFile trW.text
      (trW.fontPoint + ((3 : Nat) : Int)) ∧
    ((∃ tr2 dif, TextLine.resize Mlin 10 trW tcW Resize.GROW =
        some (tr2, dif) ∧
      trW.size.1 ≤ tr2.size.1 ∧ tcW.size.1 ≤ tr2.size.1 ∧
      (tr2.fontPoint = trW.fontPoint ∨
        lineWidth Mlin trW.fontFile trW.text (tr2.fontPoint - 1) <
          tcW.size.1)) ∧
    (∃ tr2 dif, TextLine.resize Mlin 10 trW tcW Resize.SHRINK =
        some (tr2, dif) ∧
      tr2.size.1 ≤ trW.size.1 ∧ tr2.size.1 ≤ tcW.size.1 ∧
      (tr2.fontPoint = trW.fontPoint ∨
        tcW.size.1 < lineWidth Mlin trW.fontFile trW.text
          (tr2.fontPoint + 1)))) :=
  ⟨rfl, by decide,
    C4_resize_monotone Mlin 10 trW tcW rfl ⟨3, by decide, by decide⟩
      ⟨0, by decide, by decide⟩⟩

end Timelapse
